import Mathlib

/-!
Verification of the allegro price monitor (get_price.py, main.py,
email_alert.py).

Prices are modelled as rationals (`ℚ`); Python floats on the two-decimal
price strings handled here are exact enough that no rounding artefacts
matter for any property below.  Timestamps (`datetime.utcnow()` and the
ISO strings stored in the ended cache) are modelled as integer seconds.
Python dicts keyed by strings are modelled as functions `String → Option _`.
-/

namespace AllegroMonitor

/-! ## Python string semantics

Helpers used by the translated functions.  They model `str.lower`,
`str.replace`, `str.strip`, the `in` substring test, and the character
classes `\d`, `\s` of the `re` module (restricted to the characters that
occur on the pages and fixtures in question; Python's classes also cover
further unicode, which never appears here).
-/

/-- Python `str.lower` per character: ASCII plus the Polish capitals that
occur in the strings handled by the program. -/
def pyLowerChar (c : Char) : Char :=
  if c = 'Ą' then 'ą' else if c = 'Ć' then 'ć' else if c = 'Ę' then 'ę'
  else if c = 'Ł' then 'ł' else if c = 'Ń' then 'ń' else if c = 'Ó' then 'ó'
  else if c = 'Ś' then 'ś' else if c = 'Ź' then 'ź' else if c = 'Ż' then 'ż'
  else c.toLower

/-- Python `str.lower`. -/
def pyLower (s : String) : String := String.mk (s.data.map pyLowerChar)

/-- Python's `\s` class / `str.strip` whitespace (the characters occurring
here; `\xa0` is whitespace for `re` on `str`). -/
def pyIsSpace (c : Char) : Bool :=
  c = ' ' || c = '\t' || c = '\n' || c = '\r' || c = '\x0b' || c = '\x0c' || c = '\xA0'

/-- Python `str.strip()` on a character list. -/
def stripList (l : List Char) : List Char :=
  ((l.dropWhile pyIsSpace).reverse.dropWhile pyIsSpace).reverse

/-- Python `str.strip()`. -/
def stripStr (s : String) : String := String.mk (stripList s.data)

/-- One step of Python `str.replace(pat, rep)` (left to right,
non-overlapping).  Fuel-driven so that it is structurally recursive and
evaluates in the kernel; fuel = length of the list always suffices for a
non-empty pattern, since every step consumes at least one character. -/
def replaceAllGo (pat rep : List Char) : Nat → List Char → List Char
  | 0, l => l
  | _ + 1, [] => []
  | fuel + 1, c :: rest =>
    if pat.isPrefixOf (c :: rest) ∧ pat ≠ [] then
      rep ++ replaceAllGo pat rep fuel ((c :: rest).drop pat.length)
    else
      c :: replaceAllGo pat rep fuel rest

/-- Python `str.replace(pat, rep)` for a non-empty `pat`. -/
def replaceAll (pat rep l : List Char) : List Char := replaceAllGo pat rep l.length l

/-- Is `needle` a contiguous substring of `hay`?  Python's `needle in hay`. -/
def subListAt (needle : List Char) : List Char → Bool
  | [] => needle.isEmpty
  | c :: rest => needle.isPrefixOf (c :: rest) || subListAt needle rest

/-- Python `sub in s` on strings. -/
def containsStr (s sub : String) : Bool := subListAt sub.data s.data

/-- Digits of a decimal numeral to a natural number. -/
def natOfDigits (l : List Char) : ℕ :=
  l.foldl (fun n c => n * 10 + (c.toNat - 48)) 0

/-- Python `float(...)` on the strings produced by the price parser: an
optional integer part, at most one dot, an optional fractional part (no
signs or exponents arise there).  Any other character - e.g. a tab kept by
`[\d\s]` that `replace(" ", "")` did not remove - makes `float` raise,
modelled as `none`. -/
def floatOfDigits (l : List Char) : Option ℚ :=
  if l.all (fun c => c.isDigit || c = '.') then
    match l.splitOn '.' with
    | [ip] => if ip = [] then none else some (natOfDigits ip)
    | [ip, fp] =>
      if ip = [] && fp = [] then none
      else some (mkRat (natOfDigits ip * 10 ^ fp.length + natOfDigits fp) (10 ^ fp.length))
    | _ => none
  else none

/-- Try `f n`, `f (n-1)`, ..., `f 0`, first success: a greedy `*` quantifier
backtracking from the longest candidate downwards. -/
def firstKDesc (f : Nat → Option α) : Nat → Option α
  | 0 => f 0
  | n + 1 =>
    match f (n + 1) with
    | some a => some a
    | none => firstKDesc f n

/-- `re.search`: try the deterministic matcher `f` at every position, left to
right, first success. -/
def firstMatch (f : List Char → Option α) : List Char → Option α
  | [] => f []
  | c :: rest =>
    match f (c :: rest) with
    | some a => some a
    | none => firstMatch f rest

/-! ## get_price.py: `_parse_price_text` (lines 21-38)

```python
def _parse_price_text(txt):
    if not txt: return None
    t = txt.lower().replace("zł", "").replace("pln", "").replace("\xa0", " ")
    t = re.sub(r"[^\d,.\s]", "", t).strip()
    m = re.search(r"(\d[\d\s]*[.,]\d{1,2}|\d[\d\s]*)", t)
    if not m: return None
    num = m.group(1).replace(" ", "").replace(",", ".")
    try: return float(num)
    except Exception: return None
```

The regex alternation is transliterated with Python's backtracking
semantics: both alternatives begin with `\d`, so the leftmost match starts
at the first digit; there `\d[\d\s]*[.,]\d{1,2}` is preferred, with the
greedy `[\d\s]*` backing off from the longest digit/space run and the
greedy `\d{1,2}` taking two digits when it can; otherwise `\d[\d\s]*`
matches the whole run. -/

/-- The group matched by `(\d[\d\s]*[.,]\d{1,2}|\d[\d\s]*)` at the first
digit of `l`, or `none` when `l` has no digit. -/
def priceTextGroup (l : List Char) : Option (List Char) :=
  match l.dropWhile (fun c => !c.isDigit) with
  | [] => none
  | c :: rest =>
    let run := rest.takeWhile (fun x => x.isDigit || pyIsSpace x)
    match firstKDesc (fun k =>
        match rest.drop k with
        | s :: d1 :: tl =>
          if (s = '.' || s = ',') && d1.isDigit then
            some (c :: rest.take k ++ s :: d1 ::
              (match tl with
               | d2 :: _ => if d2.isDigit then [d2] else []
               | [] => []))
          else none
        | _ => none) run.length with
    | some g => some g
    | none => some (c :: run)

/-- `_parse_price_text` of get_price.py. -/
def parse_price_text (txt : String) : Option ℚ :=
  if txt = "" then none
  else
    let t := txt.data.map pyLowerChar
    let t := replaceAll "zł".data [] t
    let t := replaceAll "pln".data [] t
    let t := t.map (fun c => if c = '\xA0' then ' ' else c)
    let t := t.filter (fun c => c.isDigit || c = ',' || c = '.' || pyIsSpace c)
    let t := stripList t
    match priceTextGroup t with
    | none => none
    | some g =>
      floatOfDigits ((g.filter (fun c => c ≠ ' ')).map (fun c => if c = ',' then '.' else c))

/-! ## get_price.py: `_json_find_price` (lines 41-75)

Walks an arbitrary JSON-like value, preferring the known price-bearing keys
of a mapping (`price`, `amount`, `currentPrice`, `sellingMode`,
`buyNowPrice`, `minPrice`, `value`; for a mapping-valued preferred key only
the inner keys `amount`, `price`, `value` are probed), then every value in
insertion order, then list elements in order; numbers count only above
0.01, strings go through `_parse_price_text`.  The recursion is fuel-driven
so that it is structural; the fuel picked by `json_find_price` exceeds the
size of the value, so it never runs out (the Python recursion terminates on
any finite JSON value for the same reason). -/

/-- A JSON-like value as returned by `page.evaluate` (mappings keep
insertion order, as Python dicts do). -/
inductive JVal where
  | jnull : JVal
  | jnum : ℚ → JVal
  | jstr : String → JVal
  | jobj : List (String × JVal) → JVal
  | jarr : List JVal → JVal

/-- `k in obj` / `obj[k]` on a mapping. -/
def jlookup (fields : List (String × JVal)) (k : String) : Option JVal :=
  (fields.find? (fun p => p.1 == k)).map (fun p => p.2)

/-- The preferred keys probed first on any mapping. -/
def prefKeys : List String :=
  ["price", "amount", "currentPrice", "sellingMode", "buyNowPrice", "minPrice", "value"]

/-- The inner keys probed when a preferred key holds a mapping. -/
def innerKeys : List String := ["amount", "price", "value"]

mutual

def jfp : Nat → JVal → Option ℚ
  | 0, _ => none
  | fuel + 1, j =>
    match j with
    | .jnull => none
    | .jnum q => if mkRat 1 100 < q then some q else none
    | .jstr s => parse_price_text s
    | .jobj fields =>
      match jfpPref fuel fields prefKeys with
      | some v => some v
      | none => jfpList fuel (fields.map (fun p => p.2))
    | .jarr items => jfpList fuel items

def jfpPref : Nat → List (String × JVal) → List String → Option ℚ
  | 0, _, _ => none
  | fuel + 1, fields, keys =>
    match keys with
    | [] => none
    | k :: ks =>
      match jlookup fields k with
      | none => jfpPref fuel fields ks
      | some (.jobj inner) =>
        match jfpInner fuel inner innerKeys with
        | some pv => some pv
        | none => jfpPref fuel fields ks
      | some v =>
        match jfp fuel v with
        | some pv => some pv
        | none => jfpPref fuel fields ks

def jfpInner : Nat → List (String × JVal) → List String → Option ℚ
  | 0, _, _ => none
  | fuel + 1, inner, keys =>
    match keys with
    | [] => none
    | kk :: kks =>
      match jlookup inner kk with
      | none => jfpInner fuel inner kks
      | some v =>
        match jfp fuel v with
        | some pv => some pv
        | none => jfpInner fuel inner kks

def jfpList : Nat → List JVal → Option ℚ
  | 0, _ => none
  | fuel + 1, items =>
    match items with
    | [] => none
    | v :: vs =>
      match jfp fuel v with
      | some pv => some pv
      | none => jfpList fuel vs

end

mutual

/-- A fuel bound exceeding any recursion depth `jfp` can reach on `j`. -/
def jvalFuel : JVal → Nat
  | .jnull => 2
  | .jnum _ => 2
  | .jstr _ => 2
  | .jobj fields => 2 + jvalFuelFields fields
  | .jarr items => 2 + jvalFuelList items

def jvalFuelFields : List (String × JVal) → Nat
  | [] => 0
  | (_, v) :: rest => 1 + jvalFuel v + jvalFuelFields rest

def jvalFuelList : List JVal → Nat
  | [] => 0
  | v :: rest => 1 + jvalFuel v + jvalFuelList rest

end

/-- `_json_find_price` of get_price.py. -/
def json_find_price (j : JVal) : Option ℚ := jfp (jvalFuel j) j

/-! ## get_price.py: `_extract_price_from_html` (lines 78-92)

Each of the five patterns is transliterated as a deterministic matcher -
their greedy quantifiers cannot backtrack except for the `[^}]*` span of
patterns 3 and 5, which is handled explicitly - tried by `re.search` at
every position (the leftmost occurrence of the pattern's leading literal
with a matching tail wins).  Patterns are tried in order; per pattern only
the first match is handed to `_parse_price_text`. -/

/-- Consume a literal. -/
def stripLit (lit : String) (l : List Char) : Option (List Char) :=
  if lit.data.isPrefixOf l then some (l.drop lit.data.length) else none

/-- The class `[\d.,\s]` of patterns 1 and 2. -/
def clsA (c : Char) : Bool := c.isDigit || c = '.' || c = ',' || pyIsSpace c

/-- The class `[\d.,]` of patterns 3, 4 and 5. -/
def clsB (c : Char) : Bool := c.isDigit || c = '.' || c = ','

/-- `"price"\s*:\s*"(?P<p>[\d.,\s]+)"` -/
def stepPa1 (l : List Char) : Option (List Char) := do
  let l ← stripLit "\"price\"" l
  let l := l.dropWhile pyIsSpace
  let l ← stripLit ":" l
  let l := l.dropWhile pyIsSpace
  let l ← stripLit "\"" l
  let g := l.takeWhile clsA
  if g = [] then none else do
  let _ ← stripLit "\"" (l.drop g.length)
  pure g

/-- `"price"\s*:\s*(?P<p>\d[\d.,\s]*)` -/
def stepPa2 (l : List Char) : Option (List Char) := do
  let l ← stripLit "\"price\"" l
  let l := l.dropWhile pyIsSpace
  let l ← stripLit ":" l
  let l := l.dropWhile pyIsSpace
  match l with
  | c :: rest => if c.isDigit then pure (c :: rest.takeWhile clsA) else none
  | [] => none

/-- `KEY\s*:\s*\{[^}]*"amount"\s*:\s*"(?P<p>[\d.,]+)"` with the greedy
`[^}]*` backing off from the longest non-brace span. -/
def stepBrace (keyLit : String) (l : List Char) : Option (List Char) := do
  let l ← stripLit keyLit l
  let l := l.dropWhile pyIsSpace
  let l ← stripLit ":" l
  let l := l.dropWhile pyIsSpace
  let l ← stripLit "\x7b" l
  let span := l.takeWhile (fun c => c ≠ '\x7d')
  firstKDesc (fun k => do
    let t := l.drop k
    let t ← stripLit "\"amount\"" t
    let t := t.dropWhile pyIsSpace
    let t ← stripLit ":" t
    let t := t.dropWhile pyIsSpace
    let t ← stripLit "\"" t
    let g := t.takeWhile clsB
    if g = [] then none else do
    let _ ← stripLit "\"" (t.drop g.length)
    pure g) span.length

def stepPa3 (l : List Char) : Option (List Char) := stepBrace "\"currentPrice\"" l

/-- `"amount"\s*:\s*"(?P<p>[\d.,]+)"\s*,\s*"currency"\s*:\s*"(?:PLN|zł)"` -/
def stepPa4 (l : List Char) : Option (List Char) := do
  let l ← stripLit "\"amount\"" l
  let l := l.dropWhile pyIsSpace
  let l ← stripLit ":" l
  let l := l.dropWhile pyIsSpace
  let l ← stripLit "\"" l
  let g := l.takeWhile clsB
  if g = [] then none else do
  let l ← stripLit "\"" (l.drop g.length)
  let l := l.dropWhile pyIsSpace
  let l ← stripLit "," l
  let l := l.dropWhile pyIsSpace
  let l ← stripLit "\"currency\"" l
  let l := l.dropWhile pyIsSpace
  let l ← stripLit ":" l
  let l := l.dropWhile pyIsSpace
  let l ← stripLit "\"" l
  let l ← match stripLit "PLN" l with
          | some r => some r
          | none => stripLit "zł" l
  let _ ← stripLit "\"" l
  pure g

def stepPa5 (l : List Char) : Option (List Char) := stepBrace "\"buyNowPrice\"" l

/-- `for pat in pats: m = re.search(pat, html); if m: v = _parse_price_text(
m.group("p")); if v is not None: return v`. -/
def tryPats (l : List Char) : List (List Char → Option (List Char)) → Option ℚ
  | [] => none
  | f :: fs =>
    match firstMatch f l with
    | some g =>
      match parse_price_text (String.mk g) with
      | some v => some v
      | none => tryPats l fs
    | none => tryPats l fs

/-- `_extract_price_from_html` of get_price.py. -/
def extract_price_from_html (html : String) : Option ℚ :=
  tryPats html.data [stepPa1, stepPa2, stepPa3, stepPa4, stepPa5]

/-! ## get_price.py: the free-text body pattern of `_extract_price_dom`
(lines 217-225)

```python
body_txt = page.inner_text("body", timeout=800)
m = re.search(r"(\d[\d\s]*[.,]\d{1,2})\s*zł", body_txt.lower())
if m:
    v = _parse_price_text(m.group(1))
    if v is not None:
        return v
```

The matcher returns the group together with the rest of the input after
the match, so that `re.findall` semantics (used only by the spec-side
definitions below) can be expressed over the same step. -/

/-- The pattern `(\d[\d\s]*[.,]\d{1,2})\s*zł` at the head of `l`:
`(group, rest after the match)`.  The greedy `[\d\s]*` backs off from the
longest run and the greedy `\d{1,2}` prefers two digits, subject to the
mandatory `\s*zł` tail. -/
def stepBodyPat (l : List Char) : Option (List Char × List Char) :=
  match l with
  | [] => none
  | c :: rest =>
    if !c.isDigit then none
    else
      let run := rest.takeWhile (fun x => x.isDigit || pyIsSpace x)
      let tryTail := fun (g : List Char) (after : List Char) =>
        let after2 := after.dropWhile pyIsSpace
        match stripLit "zł" after2 with
        | some r => some (g, r)
        | none => none
      firstKDesc (fun k =>
        match rest.drop k with
        | s :: d1 :: tl =>
          if (s = '.' || s = ',') && d1.isDigit then
            match tl with
            | d2 :: tl2 =>
              if d2.isDigit then
                match tryTail (c :: rest.take k ++ [s, d1, d2]) tl2 with
                | some r => some r
                | none => tryTail (c :: rest.take k ++ [s, d1]) tl
              else tryTail (c :: rest.take k ++ [s, d1]) tl
            | [] => tryTail (c :: rest.take k ++ [s, d1]) []
          else none
        | _ => none) run.length

/-- `re.search` of the body pattern: leftmost match. -/
def bodySearch (l : List Char) : Option (List Char × List Char) :=
  firstMatch stepBodyPat l

/-- The free-text fallback of `_extract_price_dom`: search the lowered body
text, parse the first match's group. -/
def extract_price_body (bodyTxt : String) : Option ℚ :=
  match bodySearch (pyLower bodyTxt).data with
  | some gr => parse_price_text (String.mk gr.1)
  | none => none

/-- `re.findall` of the body pattern (all non-overlapping match groups, in
document order).  This is NOT in the source - the source uses `re.search` -
and exists only so that the spec's claimed behaviour can be stated next to
the source's. -/
def specBodyMatchGroupsGo : Nat → List Char → List (List Char)
  | 0, _ => []
  | fuel + 1, l =>
    match bodySearch l with
    | some gr => gr.1 :: specBodyMatchGroupsGo fuel gr.2
    | none => []

/-- All body-pattern match groups of the lowered body text. -/
def specBodyMatchGroups (bodyTxt : String) : List (List Char) :=
  specBodyMatchGroupsGo ((pyLower bodyTxt).data.length + 1) (pyLower bodyTxt).data

/-- Follows the spec's words ("take the minimum of all matched numeric
values"): the minimum over every parsed match of the free-text currency
pattern. -/
def specMinBodyMatches (bodyTxt : String) : Option ℚ :=
  match (specBodyMatchGroups bodyTxt).filterMap (fun g => parse_price_text (String.mk g)) with
  | [] => none
  | v :: vs => some (vs.foldl (fun acc w => if w < acc then w else acc) v)

/-! ## get_price.py: pages, `_extract_price_dom` (lines 172-227),
`_extract_price_via_js_state` (lines 230-263), `_get_single` (lines
297-341), `get_price_batch` (lines 346-388)

A fetched page is modelled by what the code observes of it: the response
status of `page.goto` (or that both navigation attempts timed out), the
JSON values `_extract_price_via_js_state` obtains from `page.evaluate`,
the first element matched per DOM selector (`page.locator(sel).first`,
`none` when the selector matches nothing), the serialized `page.content()`
and the `inner_text("body")` (`none` when that call raises).  Consent
clicking, scrolling and `_wait_price_visible` only influence which of
these observations materialize, never the classification, so they need no
model of their own. -/

/-- The element `page.locator(sel).first` when the selector matches:
`inner_text` (`none` models the call raising), the `content` attribute and
the `aria-label` attribute (`none` models an absent attribute, which the
code turns into `""`). -/
structure DomNode where
  innerText : Option String
  content : Option String
  ariaLabel : Option String

/-- One fetched page, as observed by `_get_single`. -/
structure Page where
  /-- Both `page.goto` attempts raised `PWTimeoutError`. -/
  navTimeout : Bool
  /-- `resp.status` (`none`: no response object). -/
  status : Option Nat
  /-- The JSON values `page.evaluate` hands to `_json_find_price`. -/
  jsStates : List JVal
  /-- `page.locator(sel).first` per selector. -/
  locator : String → Option DomNode
  /-- `page.content()`. -/
  html : String
  /-- `page.inner_text("body")`, `none` when it raises. -/
  bodyText : Option String

/-- The DOM selector candidates of `_extract_price_dom`, in priority
order. -/
def domCandidates : List String :=
  ["[itemprop=\"price\"]",
   "[data-testid=\"uc-price\"]",
   "[data-testid=\"price\"]",
   "[data-testid=\"price-value\"]",
   "[data-testid=\"price-primary\"]",
   "div[data-testid=\"price-section\"]",
   "div[data-testid=\"price-wrapper\"]",
   "meta[itemprop=\"price\"]",
   "span[class*=\"price\"]",
   "[aria-label*=\"zł\"]"]

/-- The selector loop of `_extract_price_dom`: per matched candidate try
`inner_text`, the `content` attribute, then the `aria-label` attribute,
each stripped and fed to `_parse_price_text`; first parsed value wins. -/
def firstDomHit (page : Page) : List String → Option ℚ
  | [] => none
  | sel :: rest =>
    match page.locator sel with
    | none => firstDomHit page rest
    | some node =>
      match parse_price_text (stripStr (node.innerText.getD "")) with
      | some v => some v
      | none =>
        match parse_price_text (stripStr (node.content.getD "")) with
        | some v => some v
        | none =>
          match parse_price_text (stripStr (node.ariaLabel.getD "")) with
          | some v => some v
          | none => firstDomHit page rest

/-- `_extract_price_dom` of get_price.py: DOM candidates, then the HTML
patterns, then the free-text body pattern. -/
def extract_price_dom (page : Page) : Option ℚ :=
  match firstDomHit page domCandidates with
  | some v => some v
  | none =>
    match extract_price_from_html page.html with
    | some v => some v
    | none =>
      match page.bodyText with
      | some b => extract_price_body b
      | none => none

/-- `_extract_price_via_js_state` of get_price.py: first state whose walk
finds a price. -/
def extract_price_via_js_state (page : Page) : Option ℚ :=
  (page.jsStates.map json_find_price).foldl (fun acc v =>
    match acc with
    | some _ => acc
    | none => v) none

/-- The exceptions `get_price_batch` distinguishes when one auction fails:
`EndedOfferError`, `PWTimeoutError` from `page.goto`, and the generic
`RuntimeError` raised when no price was found. -/
inductive FetchErr where
  | endedOffer : String → FetchErr
  | timeout : FetchErr
  | runtime : String → FetchErr
deriving DecidableEq

def ALLEGRO_URL (aid : String) : String := "https://allegro.pl/oferta/" ++ aid

/-- A price found for one auction: `{"id": aid, "price": float(price)}`. -/
structure PriceResult where
  id : String
  price : ℚ
deriving DecidableEq

/-- An auction entry as loaded from the threshold file:
`{"id", "min_price", "product"}`. -/
structure Auction where
  id : String
  minPrice : ℚ
  product : String
deriving DecidableEq

/-- `_get_single` of get_price.py, over the page the environment serves
for the (stripped) auction id.  The goto timeout propagates first; the
404/410 check runs before any extraction; extraction is
`_extract_price_via_js_state` first, `_extract_price_dom` second; with no
price a `RuntimeError` is raised. -/
def get_single (env : String → Page) (a : Auction) : Except FetchErr PriceResult :=
  let aid := stripStr a.id
  let url := ALLEGRO_URL aid
  let page := env aid
  if page.navTimeout then .error .timeout
  else if page.status = some 404 ∨ page.status = some 410 then
    .error (.endedOffer ("ENDED " ++ aid ++ " HTTP " ++
      (match page.status with | some n => toString n | none => "None")))
  else
    match extract_price_via_js_state page with
    | some p => .ok ⟨aid, p⟩
    | none =>
      match extract_price_dom page with
      | some p => .ok ⟨aid, p⟩
      | none => .error (.runtime ("Playwright: brak ceny dla " ++ url))

/-- The error string `get_price_batch` appends for one failed auction. -/
def batchErrMsg (a : Auction) (e : FetchErr) : String :=
  let aid := a.id
  let product := if a.product = "" then "?" else a.product
  match e with
  | .endedOffer msg => product ++ ": Aukcja zakończona " ++ aid ++ " (" ++ msg ++ ")"
  | .timeout =>
    product ++ ": Page.goto: Timeout 30000ms exceeded.\nCall log:\n  - navigating to \"" ++
      ALLEGRO_URL aid ++ "\", waiting until \"domcontentloaded\""
  | .runtime msg => product ++ ": " ++ msg

/-- `get_price_batch` of get_price.py: every auction of the list is
attempted in order; successes collect into `results`, failures into
`errors`; no exception stops the loop. -/
def get_price_batch (env : String → Page) (auctions : List Auction) :
    List PriceResult × List String :=
  auctions.foldl (fun acc a =>
    match get_single env a with
    | .ok r => (acc.1 ++ [r], acc.2)
    | .error e => (acc.1, acc.2 ++ [batchErrMsg a e])) ([], [])

/-! ## main.py

Configuration defaults (lines 11-14), the ended cache (lines 96-129), the
per-file dedup of `load_auctions_from_files` (lines 80-89), `_chunk`
(lines 93-94) and the batch loop of `main` (lines 133-222).

`datetime.utcnow()` is the integer `now` (seconds); ISO timestamps stored
in the ended cache are their parsed instants (an unparsable or missing
entry makes `ended_should_skip` return `False`, exactly like an absent
key, so the cache is modelled as `String → Option Int` directly).  The
cache file on disk is modelled as the returned `PersistedState`. -/

/-- `BATCH_SIZE = int(os.getenv("BATCH_SIZE", "25"))` (default). -/
def BATCH_SIZE : Nat := 25

/-- `RECHECK_ENDED_HOURS = int(os.getenv("RECHECK_ENDED_HOURS", "72"))`
(default). -/
def RECHECK_ENDED_HOURS : Int := 72

/-- The re-check window in seconds. -/
def windowSeconds : Int := RECHECK_ENDED_HOURS * 3600

/-- `ended_should_skip` of main.py: an entry younger than the window skips
the auction; a missing (or unparsable, see above) entry does not. -/
def ended_should_skip (now : Int) (cache : String → Option Int) (aid : String) : Bool :=
  match cache aid with
  | none => false
  | some seen => decide (now - seen < windowSeconds)

/-- `mark_ended` of main.py: `cache[auction_id] = _now_iso()`. -/
def mark_ended (aid : String) (now : Int) (cache : String → Option Int) :
    String → Option Int :=
  fun j => if j = aid then some now else cache j

/-- The dedup loop shared by `load_auctions_from_files` (main.py, key
`(product, id)`) and `_dedup` (email_alert.py, key `(product, id)`): keep
an element only when its key was not seen before, preserving order. -/
def dedupByAux (key : α → String × String) (seen : List (String × String)) :
    List α → List α
  | [] => []
  | a :: rest =>
    if key a ∈ seen then dedupByAux key seen rest
    else a :: dedupByAux key (key a :: seen) rest

def dedupBy (key : α → String × String) (l : List α) : List α := dedupByAux key [] l

/-- The dedup key of `load_auctions_from_files`: `(a["product"], a["id"])`. -/
def auctionKey (a : Auction) : String × String := (a.product, a.id)

/-- The `(product, id)` dedup at the end of `load_auctions_from_files`. -/
def dedup_auctions (l : List Auction) : List Auction := dedupBy auctionKey l

/-- `_chunk` of main.py, fuel-driven (fuel = length always suffices for a
chunk size of at least 1; Python raises `ValueError` for size 0, a
configuration the program never produces since `min(BATCH_SIZE, 5) ≥ 1`). -/
def chunkListGo (n : Nat) : Nat → List Auction → List (List Auction)
  | 0, _ => []
  | _ + 1, [] => []
  | fuel + 1, c :: rest => ((c :: rest).take n) :: chunkListGo n fuel ((c :: rest).drop n)

def chunkList (n : Nat) (l : List Auction) : List (List Auction) :=
  chunkListGo n l.length l

/-- The ids of the auctions of each chunk, in processing order: exactly the
auctions `get_price_batch` attempts to fetch over the run. -/
def idsOfChunks : List (List Auction) → List String
  | [] => []
  | c :: rest => c.map (fun a => a.id) ++ idsOfChunks rest

/-- The ended-cache gate of `main` (lines 150-156): the fetch list keeps
the auctions `ended_should_skip` does not skip, in order. -/
def toCheck (auctions : List Auction) (cache : String → Option Int) (now : Int) :
    List Auction :=
  auctions.filter (fun a => !ended_should_skip now cache a.id)

/-- Is an error message classified as "ended" by `main` (line 180)? -/
def endedClassified (s : String) : Bool :=
  containsStr s "ENDED" || containsStr s "zakończon" || containsStr s "usunięt" ||
    containsStr s "HTTP 404" || containsStr s "HTTP 410"

/-- The error classification of `main` (lines 177-192) for one message:
an ended-classified message marks the first auction of the chunk whose id
occurs in it, or - when none does - every auction of the chunk; any other
message is appended to the run's error list. -/
def processErrMsg (chunk : List Auction) (now : Int)
    (acc : (String → Option Int) × List String) (msg : String) :
    (String → Option Int) × List String :=
  if endedClassified msg then
    match chunk.find? (fun a => containsStr msg a.id) with
    | some a => (mark_ended a.id now acc.1, acc.2)
    | none => (chunk.foldl (fun c a => mark_ended a.id now c) acc.1, acc.2)
  else (acc.1, acc.2 ++ [msg])

/-- `by_id = {r["id"]: r for r in results}` then `.get(a["id"])`: a dict
comprehension keeps the last entry per key. -/
def byIdLookup (results : List PriceResult) (i : String) : Option ℚ :=
  (results.reverse.find? (fun r => r.id == i)).map (fun r => r.price)

/-- An alert record appended by `main` (line 202):
`{"product", "id", "price", "min"}`. -/
structure Alert where
  product : String
  id : String
  price : ℚ
  min : ℚ
deriving DecidableEq

/-- The threshold check of `main` for one auction of the chunk (lines
196-202). -/
def evalThreshold (results : List PriceResult) (a : Auction) : Option Alert :=
  match byIdLookup results a.id with
  | none => none
  | some p => if p < a.minPrice then some ⟨a.product, a.id, p, a.minPrice⟩ else none

/-- The threshold loop of `main` over one chunk (lines 194-202). -/
def checkThresholds (chunk : List Auction) (results : List PriceResult) : List Alert :=
  chunk.filterMap (evalThreshold results)

/-- Modelled from the spec: `CooldownState` (§3), `{until, reason,
set_at}`.  main.py persists only the ended cache; no line of main.py or
get_price.py reads or writes any cooldown record, so runs thread this
component of durable storage through untouched. -/
structure Cooldown where
  untilTime : Int
  reason : String
  setAt : Int
deriving DecidableEq

/-- The durable storage a run starts from and leaves behind: the ended
cache (`ended_cache.json`) and whatever cooldown record storage may hold. -/
structure PersistedState where
  endedCache : String → Option Int
  cooldown : Option Cooldown

/-- The accumulator of the batch loop of `main`. -/
structure LoopState where
  cache : String → Option Int
  alerts : List Alert
  errors : List String
  /-- The auction ids handed to `get_price_batch` so far, in order: the
  run's fetch attempts. -/
  trace : List String

/-- The batch loop of `main` (lines 172-206): per chunk fetch, classify the
errors, evaluate the thresholds; nothing ever stops the loop early. -/
def processChunks (env : String → Page) (now : Int) :
    List (List Auction) → LoopState → LoopState
  | [], s => s
  | chunk :: rest, s =>
    let r := get_price_batch env chunk
    let ce := r.2.foldl (processErrMsg chunk now) (s.cache, s.errors)
    processChunks env now rest
      ⟨ce.1, s.alerts ++ checkThresholds chunk r.1, ce.2, s.trace ++ chunk.map (fun a => a.id)⟩

/-- What one run of `main` produces: the alert list (handed to
`send_alert` when non-empty), the error log, the persisted state written
back at the end, and the ids fetched. -/
structure RunResult where
  alerts : List Alert
  errors : List String
  state : PersistedState
  fetchedIds : List String

/-- `main` of main.py, over the already-parsed entries of the target file
(file I/O elided; the `(product, id)` dedup of `load_auctions_from_files`
is applied here, as loading does).  With zero entries `main` returns
before touching the ended cache; otherwise it gates on the ended cache,
chunks by `min(BATCH_SIZE, 5)`, runs the batch loop and writes the cache
back.  No cooldown is ever consulted or written. -/
def mainRun (env : String → Page) (rawAuctions : List Auction)
    (st : PersistedState) (now : Int) : RunResult :=
  let auctions := dedup_auctions rawAuctions
  if auctions.isEmpty then ⟨[], [], st, []⟩
  else
    let cache := st.endedCache
    let tc := toCheck auctions cache now
    let chunks := chunkList (min BATCH_SIZE 5) tc
    let s := processChunks env now chunks ⟨cache, [], [], []⟩
    ⟨s.alerts, s.errors, ⟨s.cache, st.cooldown⟩, s.trace⟩

/-! ## email_alert.py

`_env` (lines 10-14), `_fmt_alert_line` (lines 17-25), `_dedup` (lines
28-38) and `send_alert` (lines 41-97).  `datetime.now()`, the hostname and
the outcome of the SMTP session are impure inputs, passed in; the composed
`EmailMessage`, when one is successfully sent, is the `SentMail`. -/

/-- `_env`: a missing or blank variable raises; otherwise the stripped
value. -/
def envReq (v : Option String) : Option String :=
  match v with
  | none => none
  | some s => if stripStr s = "" then none else some (stripStr s)

/-- The environment variables `send_alert` reads through `_env`. -/
structure MailEnv where
  gmailUser : Option String
  gmailAppPassword : Option String
  alertTo : Option String

/-- `f"{x:.2f}"` on a price.  Python formats the nearest double with
banker's rounding of ties; every price here has at most two decimals, so
no tie arises and rounding to the nearest hundredth is exact. -/
def fmt2dec (q : ℚ) : String :=
  let n : Int := Int.fdiv (200 * q.num + q.den) (2 * q.den)
  let ip := n / 100
  let fp := (n % 100).natAbs
  toString ip ++ "." ++ (if fp < 10 then "0" else "") ++ toString fp

/-- `_fmt_alert_line` of email_alert.py (prices are always numeric here,
so the `isinstance` branch always formats). -/
def fmt_alert_line (a : Alert) : String :=
  "• " ++ a.product ++ " | aukcja " ++ a.id ++ " | cena: " ++ fmt2dec a.price ++
    " zł (min: " ++ fmt2dec a.min ++ " zł)"

/-- The dedup key of `_dedup` in email_alert.py:
`(str(a.get("product", "")), str(a.get("id", "")))`. -/
def alertKey (a : Alert) : String × String := (a.product, a.id)

/-- `_dedup` of email_alert.py. -/
def dedup_alerts (l : List Alert) : List Alert := dedupBy alertKey l

/-- The message `send_alert` composes and sends. -/
structure SentMail where
  fromAddr : String
  toList : List String
  subject : String
  body : String
deriving DecidableEq

/-- The body of the message: the header followed by one formatted line per
(deduplicated) alert, joined by newlines. -/
def composeBody (alerts : List Alert) (count : Nat) (nowStr host : String) : String :=
  let header := "Znaleziono " ++ toString count ++ " zaniżonych pozycji.\nHost: " ++
    host ++ "\nCzas: " ++ nowStr ++ "\n\n"
  String.intercalate "\n" (header :: alerts.map fmt_alert_line)

/-- `send_alert` of email_alert.py: an empty alert list sends nothing and
returns `False`; otherwise the list is deduplicated by `(product, id)`
before the body is composed; a missing environment variable or a failing
SMTP session sends nothing and returns `False`. -/
def send_alert (menv : MailEnv) (nowStr host : String) (smtpOk : Bool)
    (alerts : List Alert) : Option SentMail × Bool :=
  if alerts.isEmpty then (none, false)
  else
    let d := dedup_alerts alerts
    let count := d.length
    match envReq menv.gmailUser, envReq menv.gmailAppPassword, envReq menv.alertTo with
    | some fromAddr, some _, some toRaw =>
      let toList := ((toRaw.data.splitOn ',').map stripList).filter
        (fun l => l ≠ []) |>.map String.mk
      let subject := "[ALLEGRO] Zaniżone ceny: " ++ toString count ++
        " aukcje/aukcji (" ++ nowStr ++ ")"
      let body := composeBody d count nowStr host
      if smtpOk then (some ⟨fromAddr, toList, subject, body⟩, true) else (none, false)
    | _, _, _ => (none, false)

/-! ## Concrete fixtures

Pages, environments and inputs used by the closed theorems below. -/

/-- A page answering with HTTP 429 (a rate-limit / block signal) and no
extractable price: what the code observes when the marketplace blocks it. -/
def blockedPage : Page :=
  { navTimeout := false, status := some 429, jsStates := [],
    locator := fun _ => none, html := "", bodyText := none }

/-- A web serving the blocked page for every auction id. -/
def blockedEnv : String → Page := fun _ => blockedPage

/-- Six auctions: two chunks at the effective batch size of 5. -/
def sixAuctions : List Auction :=
  [⟨"1001", 10, "P"⟩, ⟨"1002", 10, "P"⟩, ⟨"1003", 10, "P"⟩,
   ⟨"1004", 10, "P"⟩, ⟨"1005", 10, "P"⟩, ⟨"1006", 10, "P"⟩]

/-- Empty durable storage. -/
def emptyState : PersistedState := ⟨fun _ => none, none⟩

/-- A persisted cooldown active at time 1000 (until 4600 > 1000). -/
def activeCooldown : Cooldown := ⟨4600, "HTTP 429", 1000⟩

/-- Storage holding only the active cooldown. -/
def cooldownState : PersistedState := ⟨fun _ => none, some activeCooldown⟩

/-- One watched auction. -/
def oneAuction : Auction := ⟨"123", 50, "Widget"⟩

/-- A live (HTTP 200) page whose body carries both a listing-ended phrase
and a stale price string, and nothing else extractable. -/
def endedPhrasePage : Page :=
  { navTimeout := false, status := some 200, jsStates := [],
    locator := fun _ => none, html := "",
    bodyText := some "Ta aukcja została zakończona. Ostatnia cena: 39,99 zł" }

/-- A web serving the ended-phrase page for every auction id. -/
def endedPhraseEnv : String → Page := fun _ => endedPhrasePage

/-- A page answering HTTP 404. -/
def ended404Page : Page :=
  { navTimeout := false, status := some 404, jsStates := [],
    locator := fun _ => none, html := "", bodyText := none }

/-- A web serving the 404 page for every auction id. -/
def ended404Env : String → Page := fun _ => ended404Page

/-- The body text of the C5 counterexample: two currency matches, the
larger one first. -/
def twoPriceBody : String := "999,99 zł a potem 39,99 zł"

/-- A chunk and result lists for the threshold theorems. -/
def widgetChunk : List Auction := [oneAuction]

def resultsBelow : List PriceResult := [⟨"123", 45⟩]

def resultsEqual : List PriceResult := [⟨"123", 50⟩]

/-- A cache whose only entry is auction "9" marked ended at time 0. -/
def cacheNine : String → Option Int := fun j => if j = "9" then some 0 else none

def auctionNine : Auction := ⟨"9", 10, "P"⟩

def stateNine : PersistedState := ⟨cacheNine, none⟩

/-- An ended-classified batch error message containing no auction id of
`pairChunk`. -/
def pairChunk : List Auction := [⟨"111", 1, "P"⟩, ⟨"222", 1, "P"⟩]

def endedNoIdMsg : String := "P: Aukcja zakończona (ENDED HTTP 404)"

/-- A complete mail environment. -/
def mailEnvW : MailEnv := ⟨some "u@example.com", some "pw", some "a@example.com, b@example.com"⟩

/-- An alert list with a duplicate `(product, id)` record. -/
def alertsW : List Alert :=
  [⟨"Widget", "123", 45, 50⟩, ⟨"Gadget", "77", 5, 6⟩, ⟨"Widget", "123", 45, 50⟩]

def nowStrW : String := "2026-01-01 00:00:00"

def hostW : String := "host1"

/-- The mail `send_alert` sends for `alertsW` under `mailEnvW`. -/
def mailW : SentMail :=
  ((send_alert mailEnvW nowStrW hostW true alertsW).1).getD ⟨"", [], "", ""⟩

/-! ## Helper lemmas -/

theorem dedupByAux_sublist (key : α → String × String) (seen : List (String × String)) :
    ∀ l : List α, List.Sublist (dedupByAux key seen l) l := by
  intro l
  induction l generalizing seen with
  | nil => simp [dedupByAux]
  | cons x rest ih =>
    simp only [dedupByAux]
    split
    · exact (ih seen).cons x
    · exact (ih (key x :: seen)).cons₂ x

theorem mem_dedupByAux (key : α → String × String) (seen : List (String × String))
    (l : List α) (a : α) :
    a ∈ dedupByAux key seen l ↔
      key a ∉ seen ∧ ∃ l₁ l₂, l = l₁ ++ a :: l₂ ∧ ∀ b ∈ l₁, key b ≠ key a := by
  induction l generalizing seen with
  | nil =>
    simp only [dedupByAux, List.not_mem_nil, false_iff, not_and]
    intro _ h
    obtain ⟨l₁, l₂, hl, -⟩ := h
    exact absurd hl.symm (by simp)
  | cons x rest ih =>
    simp only [dedupByAux]
    split
    case isTrue hx =>
      rw [ih]
      constructor
      · rintro ⟨hna, l₁, l₂, hl, hfirst⟩
        refine ⟨hna, x :: l₁, l₂, by rw [hl, List.cons_append], ?_⟩
        intro b hb
        rcases List.mem_cons.mp hb with rfl | hb2
        · intro h; exact hna (h ▸ hx)
        · exact hfirst b hb2
      · rintro ⟨hna, l₁, l₂, hl, hfirst⟩
        cases l₁ with
        | nil =>
          injection hl with h1 h2
          exact absurd (h1 ▸ hx) hna
        | cons y l₁x =>
          injection hl with h1 h2
          refine ⟨hna, l₁x, l₂, h2, fun b hb => hfirst b (List.mem_cons_of_mem _ hb)⟩
    case isFalse hx =>
      simp only [List.mem_cons]
      constructor
      · rintro (rfl | hmem)
        · exact ⟨hx, [], rest, rfl, by simp⟩
        · obtain ⟨hna, l₁, l₂, hl, hfirst⟩ := (ih _).mp hmem
          have hne : key a ∉ seen := fun h => hna (List.mem_cons_of_mem _ h)
          refine ⟨hne, x :: l₁, l₂, by rw [hl, List.cons_append], ?_⟩
          intro b hb
          rcases List.mem_cons.mp hb with rfl | hb2
          · intro h; exact hna (h ▸ List.mem_cons_self _ _)
          · exact hfirst b hb2
      · rintro ⟨hna, l₁, l₂, hl, hfirst⟩
        cases l₁ with
        | nil =>
          left
          injection hl with h1 _
          exact h1.symm
        | cons y l₁x =>
          right
          injection hl with h1 h2
          apply (ih _).mpr
          refine ⟨?_, l₁x, l₂, h2, fun b hb => hfirst b (List.mem_cons_of_mem _ hb)⟩
          intro h
          rcases List.mem_cons.mp h with h3 | h3
          · exact hfirst y (List.mem_cons_self _ _) (h1 ▸ h3.symm)
          · exact hna h3



theorem dedupByAux_pairwise (key : α → String × String) (seen : List (String × String)) :
    ∀ l : List α, (dedupByAux key seen l).Pairwise (fun a b => key a ≠ key b) := by
  intro l
  induction l generalizing seen with
  | nil => simp [dedupByAux]
  | cons x rest ih =>
    simp only [dedupByAux]
    split
    · exact ih seen
    · refine List.Pairwise.cons ?_ (ih _)
      intro b hb
      have := ((mem_dedupByAux key _ rest b).mp hb).1
      intro h
      exact this (h ▸ List.mem_cons_self _ _)

theorem idsOfChunks_chunkListGo (n : Nat) (hn : 0 < n) :
    ∀ fuel (l : List Auction), l.length ≤ fuel →
      idsOfChunks (chunkListGo n fuel l) = l.map (fun a => a.id) := by
  intro fuel
  induction fuel with
  | zero =>
    intro l hl
    have : l = [] := List.eq_nil_of_length_eq_zero (Nat.le_zero.mp hl)
    subst this
    simp [chunkListGo, idsOfChunks]
  | succ fuel ih =>
    intro l hl
    cases l with
    | nil => simp [chunkListGo, idsOfChunks]
    | cons c rest =>
      have hdrop : ((c :: rest).drop n).length ≤ fuel := by
        simp only [List.length_drop, List.length_cons] at *
        omega
      simp only [chunkListGo, idsOfChunks, ih ((c :: rest).drop n) hdrop]
      rw [← List.map_append, List.take_append_drop]

theorem idsOfChunks_chunkList (n : Nat) (hn : 0 < n) (l : List Auction) :
    idsOfChunks (chunkList n l) = l.map (fun a => a.id) :=
  idsOfChunks_chunkListGo n hn l.length l (Nat.le_refl _)

theorem processChunks_trace (env : String → Page) (now : Int) :
    ∀ (chunks : List (List Auction)) (s : LoopState),
      (processChunks env now chunks s).trace = s.trace ++ idsOfChunks chunks := by
  intro chunks
  induction chunks with
  | nil => intro s; simp [processChunks, idsOfChunks]
  | cons chunk rest ih =>
    intro s
    simp only [processChunks, idsOfChunks, ih]
    simp [List.append_assoc]

/-- Every run's fetch attempts are exactly the ended-cache-filtered
auctions, in order, whatever the pages return. -/
theorem mainRun_fetchedIds (env : String → Page) (raw : List Auction)
    (st : PersistedState) (now : Int) :
    (mainRun env raw st now).fetchedIds =
      (toCheck (dedup_auctions raw) st.endedCache now).map (fun a => a.id) := by
  by_cases h : (dedup_auctions raw).isEmpty = true
  · have h0 : dedup_auctions raw = [] := List.isEmpty_iff.mp h
    simp [mainRun, h, h0, toCheck]
  · simp only [mainRun, if_neg h]
    rw [processChunks_trace]
    rw [idsOfChunks_chunkList (min BATCH_SIZE 5) (by norm_num [BATCH_SIZE])]
    rfl

/-- No run ever touches the cooldown component of durable storage. -/
theorem mainRun_cooldown (env : String → Page) (raw : List Auction)
    (st : PersistedState) (now : Int) :
    (mainRun env raw st now).state.cooldown = st.cooldown := by
  by_cases h : (dedup_auctions raw).isEmpty = true
  · simp [mainRun, h]
  · simp [mainRun, h]

theorem foldl_mark_ended (now : Int) :
    ∀ (chunk : List Auction) (cache : String → Option Int) (j : String),
      (chunk.foldl (fun c a => mark_ended a.id now c) cache) j =
        if ∃ a ∈ chunk, a.id = j then some now else cache j := by
  intro chunk
  induction chunk with
  | nil => intro cache j; simp
  | cons x rest ih =>
    intro cache j
    simp only [List.foldl_cons, ih]
    by_cases hr : ∃ a ∈ rest, a.id = j
    · simp only [if_pos hr]
      have : ∃ a ∈ x :: rest, a.id = j := by
        obtain ⟨a, ha, h⟩ := hr
        exact ⟨a, List.mem_cons_of_mem _ ha, h⟩
      rw [if_pos this]
    · simp only [if_neg hr, mark_ended]
      by_cases hx : j = x.id
      · have : ∃ a ∈ x :: rest, a.id = j := ⟨x, List.mem_cons_self _ _, hx.symm⟩
        rw [if_pos this, if_pos hx]
      · have : ¬ ∃ a ∈ x :: rest, a.id = j := by
          rintro ⟨a, ha, h⟩
          rcases List.mem_cons.mp ha with rfl | ha2
          · exact hx h.symm
          · exact hr ⟨a, ha2, h⟩
        rw [if_neg this, if_neg hx]

/-! ## Claim theorems -/

/-- C1 (counterexample): the claim's third fixture fails on the code. On
`"1,234.56"` the regex of `_parse_price_text` matches only `"1,23"` (the
greedy `[\d\s]*` cannot cross the comma and `\d{1,2}` stops after two
digits), so the comma is taken as the decimal point: the result is 1.23,
not 1234.56. -/
theorem parse_price_mixed_separators_cex :
    parse_price_text "1,234.56" = some (mkRat 123 100) ∧
    parse_price_text "1,234.56" ≠ some (mkRat 123456 100) :=
  ⟨by decide, by decide⟩

/-- C1 (amended): `_parse_price_text` maps `"1 234,56 zł"` to 1234.56 and
`"39,99"` to 39.99 as claimed; but `"1,234.56"` is mapped to 1.23 - when
both a comma and a dot are present, the first separator after the leading
digit run is taken as the decimal point and at most two digits after it
are read; the earlier separator is never treated as a thousands
separator. -/
theorem parse_price_fixtures :
    parse_price_text "1 234,56 zł" = some (mkRat 123456 100) ∧
    parse_price_text "39,99" = some (mkRat 3999 100) ∧
    parse_price_text "1,234.56" = some (mkRat 123 100) :=
  ⟨by decide, by decide, by decide⟩

/-- C5 (counterexample): on a payload with two currency matches, the
larger first, the free-text fallback of `_extract_price_dom` returns the
first match (999.99), not the minimum of all matches (39.99). -/
theorem body_first_not_min_cex :
    extract_price_body twoPriceBody = some (mkRat 99999 100) ∧
    specMinBodyMatches twoPriceBody = some (mkRat 3999 100) ∧
    extract_price_body twoPriceBody ≠ specMinBodyMatches twoPriceBody :=
  ⟨by decide, by decide, by decide⟩

/-- C5 (amended): the free-text currency-pattern fallback returns the
value parsed from the FIRST match in document order (`re.search`), never
the minimum over all matches. -/
theorem body_fallback_first_match (b : String) :
    extract_price_body b =
      ((specBodyMatchGroups b).head?).bind (fun g => parse_price_text (String.mk g)) := by
  cases h : bodySearch (pyLower b).data with
  | none => simp [extract_price_body, specBodyMatchGroups, specBodyMatchGroupsGo, h]
  | some gr => simp [extract_price_body, specBodyMatchGroups, specBodyMatchGroupsGo, h]

/-- C8: the `(product, id)` dedup of `load_auctions_from_files` keeps the
input order (the output is a sublist of the input), leaves no two entries
with the same key, and keeps exactly the first occurrence of each key. -/
theorem dedup_first_occurrence (l : List Auction) :
    List.Sublist (dedup_auctions l) l ∧
    (dedup_auctions l).Pairwise (fun a b => auctionKey a ≠ auctionKey b) ∧
    (∀ a : Auction, a ∈ dedup_auctions l ↔
       ∃ l₁ l₂, l = l₁ ++ a :: l₂ ∧ ∀ b ∈ l₁, auctionKey b ≠ auctionKey a) := by
  refine ⟨dedupByAux_sublist _ _ l, dedupByAux_pairwise _ _ l, fun a => ?_⟩
  rw [dedup_auctions, dedupBy, mem_dedupByAux]
  simp

/-- C10: when a batch error message is ended-classified but contains no
auction id of the chunk as a substring, `main` marks EVERY auction of the
chunk ended (at the current timestamp), and appends nothing to the error
log. -/
theorem chunkwide_mark_ended (chunk : List Auction) (now : Int)
    (cache : String → Option Int) (errors : List String) (msg : String)
    (hc : endedClassified msg = true)
    (hn : ∀ a ∈ chunk, containsStr msg a.id = false) :
    (∀ a ∈ chunk, (processErrMsg chunk now (cache, errors) msg).1 a.id = some now) ∧
    (processErrMsg chunk now (cache, errors) msg).2 = errors := by
  have hfind : chunk.find? (fun a => containsStr msg a.id) = none := by
    rw [List.find?_eq_none]
    intro a ha
    simp [hn a ha]
  simp only [processErrMsg, hc, if_true, hfind]
  constructor
  · intro a ha
    rw [foldl_mark_ended]
    exact if_pos ⟨a, ha, rfl⟩
  · trivial

/-- C10 (witness): a concrete ended-classified message naming neither
auction of the chunk marks both ended. -/
theorem chunkwide_mark_ended_witness :
    endedClassified endedNoIdMsg = true ∧
    (processErrMsg pairChunk 77 (fun _ => none, []) endedNoIdMsg).1 "111" = some 77 ∧
    (processErrMsg pairChunk 77 (fun _ => none, []) endedNoIdMsg).1 "222" = some 77 := by
  have h := chunkwide_mark_ended pairChunk 77 (fun _ => none) [] endedNoIdMsg
    (by decide) (by decide)
  exact ⟨by decide, h.1 ⟨"111", 1, "P"⟩ (by decide), h.1 ⟨"222", 1, "P"⟩ (by decide)⟩

/-- C2 (counterexample): a run whose very first fetch is answered with
HTTP 429 (a block signal) does not abort - all six auction ids, in both
chunks, are still fetched - and no cooldown record is persisted (the
cooldown component of storage stays `none`). -/
theorem blocked_no_abort_cex :
    (blockedEnv "1001").status = some 429 ∧
    (mainRun blockedEnv sixAuctions emptyState 0).fetchedIds =
      ["1001", "1002", "1003", "1004", "1005", "1006"] ∧
    (mainRun blockedEnv sixAuctions emptyState 0).state.cooldown = none :=
  ⟨rfl, by decide, by decide⟩

/-- C2 (amended): main.py never classifies a block signal: whatever any
page returns, every identifier of the (deduplicated, ended-cache-filtered)
fetch list is fetched - the batch never aborts - and the cooldown
component of durable storage is returned exactly as it was read (the
program maintains no cooldown). -/
theorem blocked_run_continues (env : String → Page) (raw : List Auction)
    (st : PersistedState) (now : Int) :
    (mainRun env raw st now).state.cooldown = st.cooldown ∧
    (mainRun env raw st now).fetchedIds =
      (toCheck (dedup_auctions raw) st.endedCache now).map (fun a => a.id) :=
  ⟨mainRun_cooldown env raw st now, mainRun_fetchedIds env raw st now⟩

/-- C3 (counterexample): a run starting while a persisted cooldown is
active (now = 1000 < until = 4600) still performs a fetch attempt: the
claimed "zero fetch attempts" fails. -/
theorem cooldown_ignored_cex :
    (1000 : Int) < activeCooldown.untilTime ∧
    (mainRun blockedEnv [oneAuction] cooldownState 1000).fetchedIds = ["123"] ∧
    (mainRun blockedEnv [oneAuction] cooldownState 1000).fetchedIds ≠ [] :=
  ⟨by decide, by decide, by decide⟩

/-- C3 (amended): no fetch attempt ever consults a cooldown: a run under
an active persisted cooldown (now < until) fetches exactly what the run
without the cooldown record fetches - the full ended-cache-filtered list. -/
theorem cooldown_never_consulted (env : String → Page) (raw : List Auction)
    (cache : String → Option Int) (cd : Cooldown) (now : Int)
    (_hact : now < cd.untilTime) :
    (mainRun env raw ⟨cache, some cd⟩ now).fetchedIds =
      (mainRun env raw ⟨cache, none⟩ now).fetchedIds ∧
    (mainRun env raw ⟨cache, some cd⟩ now).fetchedIds =
      (toCheck (dedup_auctions raw) cache now).map (fun a => a.id) := by
  refine ⟨?_, mainRun_fetchedIds env raw ⟨cache, some cd⟩ now⟩
  rw [mainRun_fetchedIds, mainRun_fetchedIds]

/-- C3 (witness): the amended claim at a concrete active cooldown. -/
theorem cooldown_never_consulted_witness :
    (1000 : Int) < activeCooldown.untilTime ∧
    ((mainRun blockedEnv [oneAuction] ⟨emptyState.endedCache, some activeCooldown⟩ 1000).fetchedIds =
       (mainRun blockedEnv [oneAuction] ⟨emptyState.endedCache, none⟩ 1000).fetchedIds) :=
  ⟨by decide,
   (cooldown_never_consulted blockedEnv [oneAuction] emptyState.endedCache
     activeCooldown 1000 (by decide)).1⟩

deriving instance DecidableEq for Except

/-- C4 (counterexample): ended-detection by phrase does not exist at fetch
time: a live (HTTP 200) page whose body carries the listing-ended phrase
"zakończona" together with a stale price string is classified `Priced`
(the stale 39.99 is extracted), not `Ended`. -/
theorem ended_phrase_priced_cex :
    containsStr "Ta aukcja została zakończona. Ostatnia cena: 39,99 zł" "zakończon" = true ∧
    get_single endedPhraseEnv oneAuction = .ok ⟨"123", mkRat 3999 100⟩ :=
  ⟨by decide, by decide⟩

/-- C4 (amended): ended-detection runs before price extraction for the
HTTP-status markers only: every page answering 404 or 410 makes
`_get_single` raise `EndedOfferError` before any extraction is attempted,
whatever price data the payload still carries; payload phrases are not
ended-markers at fetch time. -/
theorem ended_status_before_extraction (env : String → Page) (a : Auction) (n : Nat)
    (hnav : (env (stripStr a.id)).navTimeout = false)
    (hst : (env (stripStr a.id)).status = some n)
    (hn : n = 404 ∨ n = 410) :
    get_single env a = .error (.endedOffer
      ("ENDED " ++ stripStr a.id ++ " HTTP " ++ toString n)) := by
  rcases hn with rfl | rfl <;> simp [get_single, hnav, hst]

/-- C4 (witness): the amended claim at a concrete 404 page. -/
theorem ended_status_before_extraction_witness :
    (ended404Env (stripStr oneAuction.id)).status = some 404 ∧
    get_single ended404Env oneAuction =
      .error (.endedOffer ("ENDED " ++ stripStr oneAuction.id ++ " HTTP " ++ toString 404)) :=
  ⟨rfl, ended_status_before_extraction ended404Env oneAuction 404 rfl rfl (Or.inl rfl)⟩

/-- C6: the threshold check of `main` produces an alert for a watched item
with a fetched price if and only if the price is strictly below the item's
threshold (a price equal to the threshold yields no alert), and every
produced alert carries the item's label, identifier, the fetched price and
the threshold. -/
theorem threshold_strict_iff (chunk : List Auction) (results : List PriceResult) :
    (∀ a ∈ chunk, ∀ p : ℚ, byIdLookup results a.id = some p →
       ((⟨a.product, a.id, p, a.minPrice⟩ : Alert) ∈ checkThresholds chunk results ↔
         p < a.minPrice)) ∧
    (∀ al ∈ checkThresholds chunk results, ∃ a ∈ chunk,
       byIdLookup results a.id = some al.price ∧ al.price < al.min ∧
       al.product = a.product ∧ al.id = a.id ∧ al.min = a.minPrice) := by
  constructor
  · intro a ha p hp
    constructor
    · intro hmem
      obtain ⟨a2, ha2, hf⟩ := List.mem_filterMap.mp hmem
      unfold evalThreshold at hf
      split at hf
      · exact absurd hf (by simp)
      · rename_i p2 h2
        split at hf
        · rename_i hlt
          injection hf with hf
          obtain ⟨h₁, h₂, h₃, h₄⟩ := Alert.mk.injEq .. ▸ hf
          exact h₃ ▸ h₄ ▸ hlt
        · exact absurd hf (by simp)
    · intro hlt
      exact List.mem_filterMap.mpr ⟨a, ha, by simp [evalThreshold, hp, hlt]⟩
  · intro al hal
    obtain ⟨a, ha, hf⟩ := List.mem_filterMap.mp hal
    unfold evalThreshold at hf
    split at hf
    · exact absurd hf (by simp)
    · rename_i p2 h2
      split at hf
      · rename_i hlt
        injection hf with hf
        subst hf
        exact ⟨a, ha, h2, hlt, rfl, rfl, rfl⟩
      · exact absurd hf (by simp)

/-- C6 (witness): a price of 45 below a threshold of 50 alerts; a price of
exactly 50 does not. -/
theorem threshold_strict_iff_witness :
    (⟨oneAuction.product, oneAuction.id, mkRat 45 1, oneAuction.minPrice⟩ : Alert) ∈
      checkThresholds widgetChunk resultsBelow ∧
    (⟨oneAuction.product, oneAuction.id, mkRat 50 1, oneAuction.minPrice⟩ : Alert) ∉
      checkThresholds widgetChunk resultsEqual := by
  constructor
  · exact ((threshold_strict_iff widgetChunk resultsBelow).1 oneAuction (by decide)
      (mkRat 45 1) (by decide)).mpr (by decide)
  · intro hmem
    have := ((threshold_strict_iff widgetChunk resultsEqual).1 oneAuction (by decide)
      (mkRat 50 1) (by decide)).mp hmem
    exact absurd this (by decide)

/-- C7: an identifier whose ended-cache timestamp is younger than the
re-check window (72 h) is skipped - it is excluded from the fetch list and
its id is never fetched - and one whose timestamp has aged past the window
(or is absent) stays in the fetch list and is fetched on the run; the
skip test compares `now - seen < window` exactly. -/
theorem ended_cache_gate (env : String → Page) (raw : List Auction)
    (st : PersistedState) (now : Int) (a : Auction) (ha : a ∈ dedup_auctions raw) :
    (∀ seen : Int, st.endedCache a.id = some seen →
       (ended_should_skip now st.endedCache a.id = true ↔ now - seen < windowSeconds)) ∧
    (a ∈ toCheck (dedup_auctions raw) st.endedCache now ↔
       ended_should_skip now st.endedCache a.id = false) ∧
    (mainRun env raw st now).fetchedIds =
      (toCheck (dedup_auctions raw) st.endedCache now).map (fun a => a.id) := by
  refine ⟨?_, ?_, mainRun_fetchedIds env raw st now⟩
  · intro seen hseen
    simp [ended_should_skip, hseen]
  · simp only [toCheck, List.mem_filter, ha, true_and]
    constructor
    · intro h
      cases hskip : ended_should_skip now st.endedCache a.id
      · rfl
      · rw [hskip] at h; exact absurd h (by decide)
    · intro h
      simp [h]

/-- C7 (witness): auction "9", marked ended at time 0, is skipped at time
100 (inside the 72 h window): the run fetches nothing. -/
theorem ended_cache_gate_witness :
    ended_should_skip 100 cacheNine "9" = true ∧
    (mainRun blockedEnv [auctionNine] stateNine 100).fetchedIds = [] := by
  have h := ended_cache_gate blockedEnv [auctionNine] stateNine 100 auctionNine (by decide)
  refine ⟨by decide, ?_⟩
  rw [h.2.2]
  decide

/-- C9: `send_alert` on an empty alert sequence sends nothing and reports
non-success; on any input whose processing reaches a composed message, the
body is composed from the `(product, id)`-deduplicated records - the
deduplicated list has pairwise-distinct keys and is an order-preserving
sublist of the input. -/
theorem notifier_dedup_and_empty (menv : MailEnv) (nowStr host : String)
    (smtpOk : Bool) (alerts : List Alert) :
    (send_alert menv nowStr host smtpOk [] = (none, false)) ∧
    (∀ msg : SentMail, (send_alert menv nowStr host smtpOk alerts).1 = some msg →
       msg.body = composeBody (dedup_alerts alerts) (dedup_alerts alerts).length nowStr host ∧
       (dedup_alerts alerts).Pairwise (fun x y => alertKey x ≠ alertKey y) ∧
       List.Sublist (dedup_alerts alerts) alerts) := by
  constructor
  · rfl
  · intro msg hmsg
    refine ⟨?_, dedupByAux_pairwise _ _ _, dedupByAux_sublist _ _ _⟩
    by_cases he : alerts.isEmpty = true
    · rw [send_alert, if_pos he] at hmsg
      exact absurd hmsg (by simp)
    · rw [send_alert, if_neg he] at hmsg
      cases h1 : envReq menv.gmailUser with
      | none => rw [h1] at hmsg; exact absurd hmsg (by simp)
      | some u =>
        cases h2 : envReq menv.gmailAppPassword with
        | none => rw [h1, h2] at hmsg; exact absurd hmsg (by simp)
        | some pw =>
          cases h3 : envReq menv.alertTo with
          | none => rw [h1, h2, h3] at hmsg; exact absurd hmsg (by simp)
          | some toRaw =>
            rw [h1, h2, h3] at hmsg
            cases smtpOk with
            | false => exact absurd hmsg (by simp)
            | true =>
              simp only [if_true, Option.some.injEq] at hmsg
              rw [← hmsg]

/-- C9 (witness): a concrete alert list with a duplicated `(product, id)`
record: the sent body is composed from the deduplicated list. -/
theorem notifier_dedup_and_empty_witness :
    (send_alert mailEnvW nowStrW hostW true alertsW).1 = some mailW ∧
    mailW.body = composeBody (dedup_alerts alertsW) (dedup_alerts alertsW).length nowStrW hostW := by
  have h := (notifier_dedup_and_empty mailEnvW nowStrW hostW true alertsW).2 mailW (by rfl)
  exact ⟨rfl, h.1⟩
